import Mathlib

/-!
# tuna: `src/util/utility.cpp`

A shallow embedding of the functions of `namespace util` that fetch remote
assets, write the song text to the configured outputs and gate the VLC module
behind the libobs version check.

Conventions of the embedding.

* The file system is a map from paths to the content of the file at that path
  (`none`: no such file).  Contents are kept as strings.
* Every call into the host, Qt, libcurl or the C library whose outcome the
  program cannot determine is an oracle field of `Host`.
* Every function returns, besides its result, the file system it leaves and
  the list of observable events it caused, in order (`Res`).
* Function-local `static` variables and mutable globals are passed in and
  returned explicitly.
* `load_vlc` is embedded for the build in which `DISABLE_TUNA_VLC` is not
  defined; with it defined the body of the function is empty.
-/

namespace Tuna

/-! ## Data model -/

/-- The file system: the content of the file at each path, if there is one. -/
abbrev FS := String → Option String

/-- Create or overwrite the file at `p` with content `d`. -/
def FS.put (fs : FS) (p d : String) : FS :=
  fun q => if q = p then some d else fs q

/-- Remove the file at `p`. -/
def FS.del (fs : FS) (p : String) : FS :=
  fun q => if q = p then none else fs q

/-- The log levels behind `bdebug`, `binfo`, `bwarn` and `berr` (utility.hpp). -/
inductive LogLevel where
  | debug
  | info
  | warning
  | error
  deriving DecidableEq, Repr

/-- Observable actions of the program. -/
inductive Event where
  /-- A call of `blog` through one of the logging macros. -/
  | log (level : LogLevel) (format : String) (args : List String)
  /-- The yes/no box of `QMessageBox::question` was shown. -/
  | question
  /-- One of the three libVLC loading stages was called. -/
  | vlc_call (fn : String)
  /-- The fetcher `curl_download` was entered for `url` and `path`. -/
  | fetch (url path : String)
  /-- The transfer `curl_easy_perform` was run for `url`. -/
  | transfer (url : String)
  /-- A call of `QFile::open` on an output file, and whether it succeeded. -/
  | file_open (path : String) (append : Bool) (ok : Bool)
  /-- The text flushed to an opened output file. -/
  | file_write (path : String) (data : String)
  deriving DecidableEq, Repr

/-- The part of `class song` (query/music_source.hpp) that utility.cpp reads. -/
structure song where
  /-- The capability bitmask returned by `data()`. -/
  data : Nat
  /-- The `play_state` returned by `state()`, as its enumerator value. -/
  state : Nat
  /-- The cover URL returned by `cover()`. -/
  cover : String
  /-- The lyrics URL returned by `lyrics()`. -/
  lyrics : String
  deriving DecidableEq, Repr

/-- The fields of `config::output` that utility.cpp uses. -/
structure output where
  path : String
  format : String
  log_mode : Bool
  last_output : String
  deriving DecidableEq, Repr

/-- Constants of headers that utility.cpp includes (obs-config.h,
query/music_source.hpp); they are parameters of the embedding. -/
structure Consts where
  LIBOBS_API_VER : Nat
  LIBOBS_API_MAJOR_VER : Nat
  LIBOBS_API_MINOR_VER : Nat
  LIBOBS_API_PATCH_VER : Nat
  CAP_LYRICS : Nat
  state_paused : Nat

/-- The success code of libcurl (curl/curl.h). -/
def CURLE_OK : Nat := 0

/-- The outcomes of the external calls. -/
structure Host where
  /-- The value of `obs_get_version()`. -/
  obs_get_version : Nat
  /-- Whether `QMessageBox::question` is answered with Yes. -/
  question_yes : Bool
  load_libvlc_module : Bool
  load_vlc_funcs : Bool
  load_libvlc : Bool
  /-- Whether `curl_easy_init` returns a handle. -/
  curl_easy_init : Bool
  /-- Whether `fopen(path, "wb")` returns a stream. -/
  fopen : String → Bool
  /-- The code `curl_easy_perform` returns for a URL and the body it handed to
  the write callback before returning. -/
  curl_easy_perform : String → Nat × String
  /-- Whether `QFile::open` succeeds on a path, by append mode. -/
  qfile_open : String → Bool → Bool
  /-- Whether `QFile::remove` can remove an existing file. -/
  qfile_remove : String → Bool
  /-- Whether `QFile::rename` can move an existing file to a free path. -/
  qfile_rename : String → String → Bool
  /-- The HTTP status of the server's answer for a URL.  libcurl keeps it in
  the handle; `curl_download` sets no `CURLOPT_FAILONERROR` and never asks for
  it, so a 404 answer is a transfer that returns `CURLE_OK`. -/
  http_status : String → Nat
  /-- What of a body handed to `fwrite` on the stream of a path has reached the
  file once `fclose` has returned: the body itself, unless a buffered write
  fails (a full device).  `write_data` only sees what `fwrite` reports, and
  `curl_download` drops the result of `fclose`. -/
  stored : String → String → String

/-- The renderer `format::execute`: the text it leaves in place of a format,
for the song that is current. -/
abbrev Renderer := String → song → String

/-- Result of a call: the value it returns or the state it leaves, the file
system after it and the events it caused. -/
structure Res (α : Type) where
  val : α
  fs : FS
  trace : List Event

/-- The two persisted booleans `CFG_ERROR_MESSAGE_SHOWN` and
`CFG_FORCE_VLC_DECISION`. -/
structure VlcConfig where
  error_message_shown : Bool
  force_vlc_decision : Bool
  deriving DecidableEq, Repr

/-- Result of `load_vlc`: the persisted booleans, the global `vlc_loaded` and
the events. -/
structure VlcRes where
  cfg : VlcConfig
  vlc_loaded : Bool
  trace : List Event

/-! ## CompatibilityGate: `load_vlc` -/

/-- Lines 90-98: `load_libvlc_module() && load_vlc_funcs() && load_libvlc()`
with the short-circuit evaluation of `&&`. -/
def try_load (h : Host) (result : Bool) (cfg : VlcConfig) (vlc_loaded : Bool)
    (pre : List Event) : VlcRes :=
  if result then
    let c1 := [Event.vlc_call "load_libvlc_module"]
    let c2 := if h.load_libvlc_module then [Event.vlc_call "load_vlc_funcs"] else []
    let c3 := if h.load_libvlc_module && h.load_vlc_funcs then [Event.vlc_call "load_libvlc"] else []
    if h.load_libvlc_module && h.load_vlc_funcs && h.load_libvlc then
      ⟨cfg, true, pre ++ c1 ++ c2 ++ c3 ++
        [Event.log LogLevel.info "Loaded libVLC. VLC source support enabled" []]⟩
    else
      ⟨cfg, vlc_loaded, pre ++ c1 ++ c2 ++ c3 ++
        [Event.log LogLevel.warning "Couldn't load libVLC, VLC source support disabled" []]⟩
  else
    ⟨cfg, vlc_loaded, pre⟩

/-- The function `util::load_vlc`. -/
def load_vlc (h : Host) (k : Consts) (cfg : VlcConfig) (vlc_loaded : Bool) : VlcRes :=
  let ver := h.obs_get_version
  if ver ≠ k.LIBOBS_API_VER then
    let major := (ver >>> 24) &&& 0xFF
    let minor := (ver >>> 16) &&& 0xFF
    let patch := ver &&& 0xFF
    let e1 := [Event.log LogLevel.warning
      "libobs version %d.%d.%d is invalid. Tuna expects %d.%d.%d for VLC sources to work"
      [toString major, toString minor, toString patch,
        toString k.LIBOBS_API_MAJOR_VER, toString k.LIBOBS_API_MINOR_VER,
        toString k.LIBOBS_API_PATCH_VER]]
    let result0 := cfg.force_vlc_decision
    let asked := !cfg.error_message_shown
    let result := if asked then h.question_yes else result0
    let e2 := if asked then [Event.question] else []
    let e3 := if result then [Event.log LogLevel.warning "User force enabled VLC support" []] else []
    try_load h result ⟨true, result⟩ vlc_loaded (e1 ++ e2 ++ e3)
  else
    try_load h true ⟨false, false⟩ vlc_loaded []

/-! ## Fetcher: `curl_download` -/

/-- The function `util::curl_download`.  The destination is created or
truncated by `fopen`; after the transfer it holds what of the delivered body
got through the buffered stream (`Host.stored`), whatever code the transfer
returned.  The result is decided by the code of `curl_easy_perform` alone. -/
def curl_download (h : Host) (url path : String) (fs : FS) : Res Bool :=
  let curl := h.curl_easy_init
  let fp := h.fopen path
  -- fopen with "wb" creates the file or truncates it
  let fs1 := if fp then fs.put path "" else fs
  if fp && curl then
    let res := (h.curl_easy_perform url).1
    let body := (h.curl_easy_perform url).2
    -- the body goes through the buffered stream; fclose's result is dropped
    let fs2 := fs1.put path (h.stored path body)
    if res ≠ CURLE_OK then
      ⟨false, fs2, [Event.fetch url path, Event.transfer url,
        Event.log LogLevel.error "Couldn't fetch file from %s to %s" [url, path]]⟩
    else
      ⟨true, fs2, [Event.fetch url path, Event.transfer url,
        Event.log LogLevel.debug "Fetched %s to %s" [url, path]]⟩
  else
    ⟨false, fs1, [Event.fetch url path]⟩

/-! ## AssetSync: `download_lyrics`, `download_cover` -/

/-- The function `util::download_lyrics`; the value of the result is the
function-local static `last_lyrics`. -/
def download_lyrics (h : Host) (k : Consts) (lyrics_path : String) (s : song)
    (last_lyrics : String) (fs : FS) : Res String :=
  if s.data &&& k.CAP_LYRICS ≠ 0 ∧ last_lyrics ≠ s.lyrics then
    let r := curl_download h s.lyrics lyrics_path fs
    if !r.val then
      ⟨s.lyrics, r.fs, r.trace ++
        [Event.log LogLevel.error "Couldn't dowload lyrics from '%s' to '%s'"
          [s.lyrics, lyrics_path]]⟩
    else
      ⟨s.lyrics, r.fs, r.trace⟩
  else
    ⟨last_lyrics, fs, []⟩

/-- The call `QFile::remove()`, whose result the callers drop: an existing
file is removed when the host allows it. -/
def qfile_remove (h : Host) (path : String) (fs : FS) : FS :=
  if (fs path).isSome && h.qfile_remove path then fs.del path else fs

/-- The call `QFile::rename(src, dst)`: it fails when `src` does not exist or
`dst` exists (Qt does not overwrite), and otherwise when the host refuses; a
failed rename leaves both paths as they were. -/
def qfile_rename (h : Host) (src dst : String) (fs : FS) : Bool × FS :=
  match fs src with
  | none => (false, fs)
  | some d =>
    if (fs dst).isSome then (false, fs)
    else if h.qfile_rename src dst then (true, (fs.del src).put dst d)
    else (false, fs)

/-- The function `util::download_cover`. -/
def download_cover (h : Host) (cover_path : String) (s : song) (fs : FS) : Res Bool :=
  let path := cover_path
  let tmp := path ++ ".tmp"
  let r := curl_download h s.cover tmp fs
  let fs1 := qfile_remove h path r.fs
  if r.val then
    let mv := qfile_rename h tmp cover_path fs1
    if !mv.1 then
      ⟨false, mv.2, r.trace ++
        [Event.log LogLevel.error "Couldn't rename temporary cover file" []]⟩
    else
      ⟨true, mv.2, r.trace⟩
  else
    ⟨false, fs1, r.trace⟩

/-! ## OutputWriter: `write_song`, `handle_outputs` -/

/-- The call `tmp_text.replace("%s", " ")` on the characters of the text:
scanning from the left, each occurrence of the marker becomes one space. -/
def replace_marker : List Char → List Char
  | [] => []
  | [c] => [c]
  | c :: d :: rest =>
    if c = '%' ∧ d = 's' then ' ' :: replace_marker rest
    else c :: replace_marker (d :: rest)

/-- The text an opened `QFile` holds after `str` (and the newline, in log
mode) went through the stream: appended in log mode, else in place of the old
content. -/
def written (o : output) (str : String) (fs : FS) : String :=
  if o.log_mode then (fs o.path).getD "" ++ str ++ "\n" else str

/-- The function `util::write_song`; the value of the result is the output
`o` as the call leaves it. -/
def write_song (h : Host) (o : output) (str : String) (fs : FS) : Res output :=
  if o.last_output = str then ⟨o, fs, []⟩
  else
    let o1 := { o with last_output := str }
    if h.qfile_open o.path o.log_mode then
      ⟨o1, fs.put o.path (written o str fs),
        [Event.file_open o.path o.log_mode true,
          Event.file_write o.path (if o.log_mode then str ++ "\n" else str)]⟩
    else
      ⟨o1, fs, [Event.file_open o.path o.log_mode false,
        Event.log LogLevel.error "Couldn't open song output file %s" [o.path]]⟩

/-- Lines 224-234 of `handle_outputs`: the value of `tmp_text` after the
placeholder step. -/
def output_text (render : Renderer) (k : Consts) (placeholder : String) (s : song)
    (o : output) : String :=
  let tmp_text := render o.format s
  if tmp_text.isEmpty || decide (s.state ≥ k.state_paused) then
    String.mk (replace_marker placeholder.data)
  else tmp_text

/-- The body of the loop of `handle_outputs` for one output. -/
def handle_output (h : Host) (render : Renderer) (k : Consts) (placeholder : String)
    (s : song) (o : output) (fs : FS) : Res output :=
  let tmp_text := output_text render k placeholder s o
  if decide (s.state ≥ k.state_paused) && o.log_mode then ⟨o, fs, []⟩
  else write_song h o tmp_text fs

/-- The function `util::handle_outputs` over `config::outputs`, in order. -/
def handle_outputs (h : Host) (render : Renderer) (k : Consts) (placeholder : String)
    (s : song) : List output → FS → Res (List output)
  | [], fs => ⟨[], fs, []⟩
  | o :: os, fs =>
    let r := handle_output h render k placeholder s o fs
    let rs := handle_outputs h render k placeholder s os r.fs
    ⟨r.val :: rs.val, rs.fs, r.trace ++ rs.trace⟩

/-- Whether an event is a write to an output file. -/
def Event.is_write : Event → Bool
  | Event.file_write _ _ => true
  | _ => false

/-- Whether an event is a call of `QFile::open` on an output file. -/
def Event.is_open : Event → Bool
  | Event.file_open _ _ _ => true
  | _ => false

/-- Whether an event is an error-level log line. -/
def Event.is_error : Event → Bool
  | Event.log LogLevel.error _ _ => true
  | _ => false

/-- Whether an event is the entry of the fetcher. -/
def Event.is_fetch : Event → Bool
  | Event.fetch _ _ => true
  | _ => false

/-- The number of file writes in a trace. -/
def writes (t : List Event) : Nat := t.countP Event.is_write

/-- The number of calls of `QFile::open` in a trace. -/
def opens (t : List Event) : Nat := t.countP Event.is_open

/-- The number of times a trace enters the fetcher. -/
def fetches (t : List Event) : Nat := t.countP Event.is_fetch

/-- The number of error-level log lines in a trace. -/
def errors (t : List Event) : Nat := t.countP Event.is_error

/-- The test of `download_lyrics`: the capability bit is set and the lyrics
value is not the remembered one. -/
def lyrics_changed (k : Consts) (s : song) (last_lyrics : String) : Prop :=
  s.data &&& k.CAP_LYRICS ≠ 0 ∧ last_lyrics ≠ s.lyrics

instance (k : Consts) (s : song) (l : String) : Decidable (lyrics_changed k s l) := by
  unfold lyrics_changed; infer_instance

/-- The loop of `handle_outputs` skips this output: the song is paused or
beyond and the output is a log. -/
def suppressed (k : Consts) (s : song) (o : output) : Bool :=
  decide (s.state ≥ k.state_paused) && o.log_mode

/-- An output that the first of two `handle_outputs` calls writes: it is not
skipped as a log of an inactive song, its cache differs from the computed text
and its file opens. -/
def gets_written (h : Host) (render : Renderer) (k : Consts) (placeholder : String)
    (s : song) (o : output) : Bool :=
  !suppressed k s o && decide (o.last_output ≠ output_text render k placeholder s o)
    && h.qfile_open o.path o.log_mode

/-- The marker that stands for a space in the placeholder. -/
def marker : List Char := ['%', 's']

/-- Cut a text at the occurrences of the marker, scanning from the left; the
pieces are the stretches between the occurrences. -/
def split_marker : List Char → List (List Char)
  | [] => [[]]
  | [c] => [[c]]
  | c :: d :: rest =>
    if c = '%' ∧ d = 's' then [] :: split_marker rest
    else (c :: (split_marker (d :: rest)).headD []) :: (split_marker (d :: rest)).tail

/-- Whether the marker occurs in a text. -/
def has_marker : List Char → Bool
  | [] => false
  | [_] => false
  | c :: d :: rest => decide (c = '%' ∧ d = 's') || has_marker (d :: rest)

/-! ## Example inputs -/

/-- A host on which no file can be opened, removed or renamed, the versions
differ, the user answers yes and every transfer succeeds with body "img". -/
def host_closed : Host :=
  ⟨1, true, true, true, true, true, fun _ => false, fun _ => (CURLE_OK, "img"),
    fun _ _ => false, fun _ => false, fun _ _ => false,
    fun _ => 200, fun _ b => b⟩

/-- A host on which every external call succeeds and the version is 2. -/
def host_open : Host :=
  ⟨2, true, true, true, true, true, fun _ => true, fun _ => (CURLE_OK, "img"),
    fun _ _ => true, fun _ => true, fun _ _ => true,
    fun _ => 200, fun _ b => b⟩

/-- A host on which files can be opened, removed and renamed but every transfer
fails with code 7 after delivering nothing. -/
def host_offline : Host :=
  ⟨2, true, true, true, true, true, fun _ => true, fun _ => (7, ""),
    fun _ _ => true, fun _ => true, fun _ _ => true,
    fun _ => 200, fun _ b => b⟩

/-- A host on which every external call succeeds but the device is full:
nothing of a body handed to `fwrite` reaches the file. -/
def host_full : Host :=
  ⟨2, true, true, true, true, true, fun _ => true, fun _ => (CURLE_OK, "img"),
    fun _ _ => true, fun _ => true, fun _ _ => true,
    fun _ => 200, fun _ _ => ""⟩

/-- A host on which every external call succeeds and the server answers every
URL with status 404 and the body "Not Found". -/
def host_404 : Host :=
  ⟨2, true, true, true, true, true, fun _ => true, fun _ => (CURLE_OK, "Not Found"),
    fun _ _ => true, fun _ => true, fun _ _ => true,
    fun _ => 404, fun _ b => b⟩

/-- A host on which every external call succeeds except `QFile::remove`. -/
def host_locked : Host :=
  ⟨2, true, true, true, true, true, fun _ => true, fun _ => (CURLE_OK, "img"),
    fun _ _ => true, fun _ => false, fun _ _ => true,
    fun _ => 200, fun _ b => b⟩

/-- Constants with libobs version 2, lyrics bit 4 and `state_paused` 1. -/
def consts_ex : Consts := ⟨2, 0, 0, 2, 4, 1⟩

/-- A renderer that returns the format unchanged. -/
def render_id : Renderer := fun f _ => f

/-- A playing song with the lyrics bit set. -/
def song_playing : song := ⟨4, 0, "http://c", "http://l"⟩

/-- A paused song. -/
def song_paused : song := ⟨4, 1, "http://c", "http://l"⟩

/-- An overwrite-mode output whose cache holds "old". -/
def out_plain : output := ⟨"song.txt", "title", false, "old"⟩

/-- A log-mode output whose cache holds "old". -/
def out_log : output := ⟨"log.txt", "title", true, "old"⟩

/-- The empty file system. -/
def fs_empty : FS := fun _ => none

/-- A file system with a cover at "cover.png". -/
def fs_cover : FS := fun q => if q = "cover.png" then some "stale" else none

/-! ## CompatibilityGate -/

theorem try_load_cfg (h : Host) (b : Bool) (cfg : VlcConfig) (vl : Bool) (pre : List Event) :
    (try_load h b cfg vl pre).cfg = cfg := by
  unfold try_load
  split_ifs <;> rfl

theorem try_load_question (h : Host) (b : Bool) (cfg : VlcConfig) (vl : Bool)
    (pre : List Event) (hp : Event.question ∉ pre) :
    Event.question ∉ (try_load h b cfg vl pre).trace := by
  unfold try_load
  split_ifs <;> simp [hp]

theorem try_load_attempt (h : Host) (cfg : VlcConfig) (vl : Bool) (pre : List Event) :
    Event.vlc_call "load_libvlc_module" ∈ (try_load h true cfg vl pre).trace := by
  simp only [try_load, if_true]
  split_ifs <;> simp

/-- C6: when the host version equals `LIBOBS_API_VER`, `load_vlc` leaves both
persisted flags false whatever they were, does not show the question box and
calls the first stage of the module load. -/
theorem load_vlc_version_match (h : Host) (k : Consts) (cfg : VlcConfig) (vl : Bool)
    (hv : h.obs_get_version = k.LIBOBS_API_VER) :
    (load_vlc h k cfg vl).cfg.error_message_shown = false ∧
    (load_vlc h k cfg vl).cfg.force_vlc_decision = false ∧
    Event.question ∉ (load_vlc h k cfg vl).trace ∧
    Event.vlc_call "load_libvlc_module" ∈ (load_vlc h k cfg vl).trace := by
  have e : load_vlc h k cfg vl = try_load h true ⟨false, false⟩ vl [] := by
    simp [load_vlc, hv]
  rw [e]
  refine ⟨?_, ?_, ?_, ?_⟩
  · rw [try_load_cfg]
  · rw [try_load_cfg]
  · exact try_load_question h true _ vl [] (by simp)
  · exact try_load_attempt h _ vl []

theorem load_vlc_version_match_witness :
    host_open.obs_get_version = consts_ex.LIBOBS_API_VER ∧
    ((load_vlc host_open consts_ex ⟨true, true⟩ false).cfg.error_message_shown = false ∧
    (load_vlc host_open consts_ex ⟨true, true⟩ false).cfg.force_vlc_decision = false ∧
    Event.question ∉ (load_vlc host_open consts_ex ⟨true, true⟩ false).trace ∧
    Event.vlc_call "load_libvlc_module" ∈
      (load_vlc host_open consts_ex ⟨true, true⟩ false).trace) :=
  ⟨by decide, load_vlc_version_match host_open consts_ex ⟨true, true⟩ false (by decide)⟩

theorem load_vlc_mismatch (h : Host) (k : Consts) (cfg : VlcConfig) (vl : Bool)
    (hv : h.obs_get_version ≠ k.LIBOBS_API_VER) :
    ∃ pre : List Event,
      load_vlc h k cfg vl =
        try_load h (if !cfg.error_message_shown then h.question_yes else cfg.force_vlc_decision)
          ⟨true, if !cfg.error_message_shown then h.question_yes else cfg.force_vlc_decision⟩
          vl pre ∧
      (Event.question ∈ pre ↔ cfg.error_message_shown = false) := by
  refine ⟨_, by simp only [load_vlc, hv, ne_eq, not_false_eq_true, if_true]; rfl, ?_⟩
  cases cfg.error_message_shown <;> simp

/-- C5: starting with the warning-shown flag false, a version mismatch
answered with yes shows the question box and persists both flags as true; a
second `load_vlc` run on these flags with a mismatching version shows no
question box, keeps both flags true and calls the first stage of the module
load. -/
theorem load_vlc_persistence (h1 h2 : Host) (k : Consts) (cfg : VlcConfig) (vl1 vl2 : Bool)
    (hshown : cfg.error_message_shown = false)
    (hv1 : h1.obs_get_version ≠ k.LIBOBS_API_VER) (hyes : h1.question_yes = true)
    (hv2 : h2.obs_get_version ≠ k.LIBOBS_API_VER) :
    Event.question ∈ (load_vlc h1 k cfg vl1).trace ∧
    (load_vlc h1 k cfg vl1).cfg = ⟨true, true⟩ ∧
    Event.question ∉ (load_vlc h2 k (load_vlc h1 k cfg vl1).cfg vl2).trace ∧
    (load_vlc h2 k (load_vlc h1 k cfg vl1).cfg vl2).cfg = ⟨true, true⟩ ∧
    Event.vlc_call "load_libvlc_module" ∈
      (load_vlc h2 k (load_vlc h1 k cfg vl1).cfg vl2).trace := by
  obtain ⟨pre1, e1, q1⟩ := load_vlc_mismatch h1 k cfg vl1 hv1
  simp only [hshown, hyes, Bool.not_false, if_true] at e1 q1
  have c1 : (load_vlc h1 k cfg vl1).cfg = ⟨true, true⟩ := by rw [e1, try_load_cfg]
  obtain ⟨pre2, e2, q2⟩ := load_vlc_mismatch h2 k ⟨true, true⟩ vl2 hv2
  simp only [Bool.not_true, Bool.false_eq_true, if_false] at e2 q2
  refine ⟨?_, c1, ?_, ?_, ?_⟩
  · rw [e1]
    have : Event.question ∈ pre1 := q1.mpr trivial
    unfold try_load
    split_ifs <;> simp [this]
  · rw [c1, e2]
    exact try_load_question h2 true _ vl2 pre2 (by simpa using q2)
  · rw [c1, e2, try_load_cfg]
  · rw [c1, e2]
    exact try_load_attempt h2 _ vl2 pre2

theorem load_vlc_persistence_witness :
    (⟨false, false⟩ : VlcConfig).error_message_shown = false ∧
    host_closed.obs_get_version ≠ consts_ex.LIBOBS_API_VER ∧
    host_closed.question_yes = true ∧
    (Event.question ∈ (load_vlc host_closed consts_ex ⟨false, false⟩ false).trace ∧
    (load_vlc host_closed consts_ex ⟨false, false⟩ false).cfg = ⟨true, true⟩ ∧
    Event.question ∉ (load_vlc host_closed consts_ex
      (load_vlc host_closed consts_ex ⟨false, false⟩ false).cfg false).trace ∧
    (load_vlc host_closed consts_ex
      (load_vlc host_closed consts_ex ⟨false, false⟩ false).cfg false).cfg = ⟨true, true⟩ ∧
    Event.vlc_call "load_libvlc_module" ∈ (load_vlc host_closed consts_ex
      (load_vlc host_closed consts_ex ⟨false, false⟩ false).cfg false).trace) :=
  ⟨rfl, by decide, rfl,
    load_vlc_persistence host_closed host_closed consts_ex ⟨false, false⟩ false false rfl
      (by decide) rfl (by decide)⟩

/-! ## Fetcher -/

theorem curl_download_val (h : Host) (url path : String) (fs : FS) :
    (curl_download h url path fs).val = true ↔
      h.fopen path = true ∧ h.curl_easy_init = true ∧
        (h.curl_easy_perform url).1 = CURLE_OK := by
  unfold curl_download
  cases h.fopen path <;> cases h.curl_easy_init <;> simp
  split_ifs with hc <;> simp [hc]

theorem curl_download_errors (h : Host) (url path : String) (fs : FS) :
    errors (curl_download h url path fs).trace =
      if h.fopen path = true ∧ h.curl_easy_init = true ∧
        (h.curl_easy_perform url).1 ≠ CURLE_OK then 1 else 0 := by
  unfold curl_download
  cases h.fopen path <;> cases h.curl_easy_init <;>
    simp [errors, Event.is_error, List.countP_cons]
  split_ifs with hc <;> simp [Event.is_error, List.countP_cons]

theorem curl_download_fetches (h : Host) (url path : String) (fs : FS) :
    fetches (curl_download h url path fs).trace = 1 := by
  unfold curl_download
  simp only [fetches]
  split_ifs <;> simp [Event.is_fetch, List.countP_cons]

theorem curl_download_fs_other (h : Host) (url path : String) (fs : FS) (q : String)
    (hq : q ≠ path) : (curl_download h url path fs).fs q = fs q := by
  unfold curl_download
  simp only
  split_ifs <;> simp [FS.put, hq]

theorem curl_download_fs_ok (h : Host) (url path : String) (fs : FS)
    (hok : (curl_download h url path fs).val = true) :
    (curl_download h url path fs).fs path =
      some (h.stored path (h.curl_easy_perform url).2) := by
  obtain ⟨h1, h2, h3⟩ := (curl_download_val h url path fs).mp hok
  unfold curl_download
  simp [h1, h2, h3, FS.put]

/-- C10 (amended): `curl_download` returns true exactly when the destination
was opened, libcurl gave a handle and `curl_easy_perform` returned `CURLE_OK`,
whatever HTTP status the server answered; it therefore returns false when the
destination cannot be opened and when the transfer fails.  It logs one error
exactly when the transfer was run and failed, and none otherwise: an
unopenable destination is not logged. -/
theorem curl_download_reporting (h : Host) (url path : String) (fs : FS) :
    ((curl_download h url path fs).val = true ↔
      h.fopen path = true ∧ h.curl_easy_init = true ∧
        (h.curl_easy_perform url).1 = CURLE_OK) ∧
    (h.fopen path = false → (curl_download h url path fs).val = false) ∧
    ((h.curl_easy_perform url).1 ≠ CURLE_OK → (curl_download h url path fs).val = false) ∧
    errors (curl_download h url path fs).trace =
      (if h.fopen path = true ∧ h.curl_easy_init = true ∧
        (h.curl_easy_perform url).1 ≠ CURLE_OK then 1 else 0) ∧
    (h.fopen path = false → errors (curl_download h url path fs).trace = 0) ∧
    (∀ status : String → Nat,
      curl_download { h with http_status := status } url path fs =
        curl_download h url path fs) := by
  have hv := curl_download_val h url path fs
  have he := curl_download_errors h url path fs
  refine ⟨hv, ?_, ?_, he, ?_, fun _ => rfl⟩
  · intro hf
    cases hc : (curl_download h url path fs).val
    · rfl
    · rw [(hv.mp hc).1] at hf; cases hf
  · intro hf
    cases hc : (curl_download h url path fs).val
    · rfl
    · exact absurd (hv.mp hc).2.2 hf
  · intro hf
    rw [he]; simp [hf]

/-- C10 (as stated) fails twice: with a destination that cannot be opened
`curl_download` returns false without logging anything, and with a server that
answers 404 the transfer returns `CURLE_OK` and `curl_download` returns true,
the error page stored in the destination and no error logged. -/
theorem curl_download_reporting_gaps :
    host_closed.fopen "lyrics.txt" = false ∧
    (curl_download host_closed "http://l" "lyrics.txt" fs_empty).val = false ∧
    (curl_download host_closed "http://l" "lyrics.txt" fs_empty).trace =
      [Event.fetch "http://l" "lyrics.txt"] ∧
    errors (curl_download host_closed "http://l" "lyrics.txt" fs_empty).trace = 0 ∧
    host_404.http_status "http://l" = 404 ∧
    (host_404.curl_easy_perform "http://l").1 = CURLE_OK ∧
    (curl_download host_404 "http://l" "lyrics.txt" fs_empty).val = true ∧
    (curl_download host_404 "http://l" "lyrics.txt" fs_empty).fs "lyrics.txt" =
      some "Not Found" ∧
    errors (curl_download host_404 "http://l" "lyrics.txt" fs_empty).trace = 0 := by
  decide

/-! ## AssetSync: lyrics -/

/-- C9: `download_lyrics` enters the fetcher (once) if and only if the
capability flags contain `CAP_LYRICS` and the lyrics value differs from the
remembered one, and then remembers the new value whatever the fetcher returns;
a second call with the same song enters no fetcher and changes nothing, also
after a failed fetch; a song without the flag causes no event and leaves the
remembered value and the files as they were. -/
theorem download_lyrics_change_detection (h h2 : Host) (k : Consts) (lyrics_path : String)
    (s : song) (last_lyrics : String) (fs : FS) :
    (0 < fetches (download_lyrics h k lyrics_path s last_lyrics fs).trace ↔
      (s.data &&& k.CAP_LYRICS ≠ 0 ∧ last_lyrics ≠ s.lyrics)) ∧
    fetches (download_lyrics h k lyrics_path s last_lyrics fs).trace ≤ 1 ∧
    ((s.data &&& k.CAP_LYRICS ≠ 0 ∧ last_lyrics ≠ s.lyrics) →
      (download_lyrics h k lyrics_path s last_lyrics fs).val = s.lyrics) ∧
    (download_lyrics h2 k lyrics_path s
        (download_lyrics h k lyrics_path s last_lyrics fs).val
        (download_lyrics h k lyrics_path s last_lyrics fs).fs).trace = [] ∧
    (download_lyrics h2 k lyrics_path s
        (download_lyrics h k lyrics_path s last_lyrics fs).val
        (download_lyrics h k lyrics_path s last_lyrics fs).fs).val =
      (download_lyrics h k lyrics_path s last_lyrics fs).val ∧
    (download_lyrics h2 k lyrics_path s
        (download_lyrics h k lyrics_path s last_lyrics fs).val
        (download_lyrics h k lyrics_path s last_lyrics fs).fs).fs =
      (download_lyrics h k lyrics_path s last_lyrics fs).fs ∧
    (s.data &&& k.CAP_LYRICS = 0 →
      (download_lyrics h k lyrics_path s last_lyrics fs).trace = [] ∧
      (download_lyrics h k lyrics_path s last_lyrics fs).val = last_lyrics ∧
      (download_lyrics h k lyrics_path s last_lyrics fs).fs = fs) := by
  have hf := curl_download_fetches h s.lyrics lyrics_path fs
  by_cases hc : s.data &&& k.CAP_LYRICS ≠ 0 ∧ last_lyrics ≠ s.lyrics
  · have e1 : (download_lyrics h k lyrics_path s last_lyrics fs).val = s.lyrics := by
      unfold download_lyrics; rw [if_pos hc]; simp only; split_ifs <;> rfl
    have e2 : fetches (download_lyrics h k lyrics_path s last_lyrics fs).trace = 1 := by
      unfold download_lyrics; rw [if_pos hc]; simp only
      split_ifs
      · simp only [fetches] at hf ⊢
        rw [List.countP_append, hf]; simp [Event.is_fetch]
      · exact hf
    have e3 : ∀ fs2, download_lyrics h2 k lyrics_path s s.lyrics fs2 = ⟨s.lyrics, fs2, []⟩ := by
      intro fs2; unfold download_lyrics; simp
    rw [e1, e2, e3]
    exact ⟨by simp [hc], le_refl _, fun _ => rfl, rfl, rfl, rfl, fun h0 => absurd h0 hc.1⟩
  · have e1 : download_lyrics h k lyrics_path s last_lyrics fs = ⟨last_lyrics, fs, []⟩ := by
      unfold download_lyrics; rw [if_neg hc]
    have e3 : download_lyrics h2 k lyrics_path s last_lyrics fs = ⟨last_lyrics, fs, []⟩ := by
      unfold download_lyrics; rw [if_neg hc]
    rw [e1]
    exact ⟨by simp [fetches, hc], by simp [fetches], fun h0 => absurd h0 hc,
      congrArg Res.trace e3, congrArg Res.val e3, congrArg Res.fs e3,
      fun _ => ⟨rfl, rfl, rfl⟩⟩

/-! ## AssetSync: cover -/

theorem tmp_ne (p : String) : p ++ ".tmp" ≠ p := by
  intro e
  have hl := congrArg String.length e
  rw [String.length_append] at hl
  have : (".tmp" : String).length = 4 := by decide
  omega

theorem qfile_remove_other (h : Host) (path q : String) (fs : FS) (hq : q ≠ path) :
    qfile_remove h path fs q = fs q := by
  unfold qfile_remove
  split_ifs <;> simp [FS.del, hq]

theorem qfile_remove_self (h : Host) (path : String) (fs : FS) :
    qfile_remove h path fs path = none ∨
      (h.qfile_remove path = false ∧ qfile_remove h path fs path = fs path ∧
        (fs path).isSome = true) := by
  unfold qfile_remove
  cases hs : (fs path).isSome <;> cases hr : h.qfile_remove path <;> simp [FS.del, hs]
  all_goals simpa using hs

theorem qfile_rename_ok (h : Host) (src dst : String) (fs : FS)
    (hok : (qfile_rename h src dst fs).1 = true) :
    ∃ d, fs src = some d ∧ (qfile_rename h src dst fs).2 = (fs.del src).put dst d := by
  unfold qfile_rename at hok ⊢
  cases hs : fs src with
  | none => simp [hs] at hok
  | some d =>
    simp only [hs] at hok ⊢
    split_ifs at hok ⊢
    all_goals simp_all

theorem qfile_rename_failed (h : Host) (src dst : String) (fs : FS)
    (hno : (qfile_rename h src dst fs).1 = false) :
    (qfile_rename h src dst fs).2 = fs := by
  unfold qfile_rename at hno ⊢
  cases hs : fs src with
  | none => rfl
  | some d =>
    simp only [hs] at hno ⊢
    split_ifs at hno ⊢ <;> rfl

theorem download_cover_failed_fs (h : Host) (cover_path : String) (s : song) (fs : FS)
    (hno : (download_cover h cover_path s fs).val = false) :
    (download_cover h cover_path s fs).fs =
      qfile_remove h cover_path (curl_download h s.cover (cover_path ++ ".tmp") fs).fs := by
  cases h1 : (curl_download h s.cover (cover_path ++ ".tmp") fs).val
  · simp [download_cover, h1]
  · cases h2 : (qfile_rename h (cover_path ++ ".tmp") cover_path
      (qfile_remove h cover_path (curl_download h s.cover (cover_path ++ ".tmp") fs).fs)).1
    · simp only [download_cover, h1, h2, if_true, Bool.not_false]
      exact qfile_rename_failed h _ _ _ h2
    · simp [download_cover, h1, h2] at hno

/-- C7 (amended): if `download_cover` returns false then no file exists at the
live cover path, unless removing the previous cover failed (the result of
`QFile::remove` is dropped), in which case the previous cover is still there,
unchanged. -/
theorem download_cover_failure (h : Host) (cover_path : String) (s : song) (fs : FS)
    (hno : (download_cover h cover_path s fs).val = false) :
    (download_cover h cover_path s fs).fs cover_path = none ∨
      (h.qfile_remove cover_path = false ∧ (fs cover_path).isSome = true ∧
        (download_cover h cover_path s fs).fs cover_path = fs cover_path) := by
  rw [download_cover_failed_fs h cover_path s fs hno]
  have hk := curl_download_fs_other h s.cover (cover_path ++ ".tmp") fs cover_path
    (fun e => tmp_ne cover_path e.symm)
  rcases qfile_remove_self h cover_path
    (curl_download h s.cover (cover_path ++ ".tmp") fs).fs with h0 | ⟨h1, h2, h3⟩
  · exact Or.inl h0
  · exact Or.inr ⟨h1, by rw [← hk]; exact h3, by rw [h2, hk]⟩

theorem download_cover_failure_witness :
    (download_cover host_offline "cover.png" song_playing fs_cover).val = false ∧
    ((download_cover host_offline "cover.png" song_playing fs_cover).fs "cover.png" = none ∨
      (host_offline.qfile_remove "cover.png" = false ∧ (fs_cover "cover.png").isSome = true ∧
        (download_cover host_offline "cover.png" song_playing fs_cover).fs "cover.png" =
          fs_cover "cover.png")) :=
  ⟨by decide,
    download_cover_failure host_offline "cover.png" song_playing fs_cover (by decide)⟩

/-- C7 (as stated) fails: when the previous cover cannot be removed,
`download_cover` returns false with the stale cover still at the live cover
path, both when the fetch fails and when the fetch succeeds and the rename
fails because the live cover path is still taken. -/
theorem download_cover_keeps_stale_cover :
    fs_cover "cover.png" = some "stale" ∧
    (download_cover host_closed "cover.png" song_playing fs_cover).val = false ∧
    (download_cover host_closed "cover.png" song_playing fs_cover).fs "cover.png" =
      some "stale" ∧
    (curl_download host_locked song_playing.cover "cover.png.tmp" fs_cover).val = true ∧
    (download_cover host_locked "cover.png" song_playing fs_cover).val = false ∧
    (download_cover host_locked "cover.png" song_playing fs_cover).fs "cover.png" =
      some "stale" := by
  decide

/-- C8 (amended): if `download_cover` returns true then no file is left at
the cover path with ".tmp" appended and the live cover file holds exactly what
of the body delivered for the cover URL of the song reached the temporary
file; that is the delivered body itself whenever no buffered write to the
temporary file was lost. -/
theorem download_cover_success (h : Host) (cover_path : String) (s : song) (fs : FS)
    (hok : (download_cover h cover_path s fs).val = true) :
    (download_cover h cover_path s fs).fs cover_path =
      some (h.stored (cover_path ++ ".tmp") (h.curl_easy_perform s.cover).2) ∧
    (download_cover h cover_path s fs).fs (cover_path ++ ".tmp") = none ∧
    (h.stored (cover_path ++ ".tmp") (h.curl_easy_perform s.cover).2 =
        (h.curl_easy_perform s.cover).2 →
      (download_cover h cover_path s fs).fs cover_path =
        some (h.curl_easy_perform s.cover).2) := by
  have hne := tmp_ne cover_path
  have key : (download_cover h cover_path s fs).fs cover_path =
        some (h.stored (cover_path ++ ".tmp") (h.curl_easy_perform s.cover).2) ∧
      (download_cover h cover_path s fs).fs (cover_path ++ ".tmp") = none := by
    cases h1 : (curl_download h s.cover (cover_path ++ ".tmp") fs).val
    · simp [download_cover, h1] at hok
    · cases h2 : (qfile_rename h (cover_path ++ ".tmp") cover_path
        (qfile_remove h cover_path (curl_download h s.cover (cover_path ++ ".tmp") fs).fs)).1
      · simp [download_cover, h1, h2] at hok
      · obtain ⟨d, hd, he⟩ := qfile_rename_ok h _ _ _ h2
        rw [qfile_remove_other h cover_path _ _ hne, curl_download_fs_ok h _ _ fs h1] at hd
        simp only [Option.some.injEq] at hd
        subst hd
        simp only [download_cover, h1, h2, if_true, Bool.not_true, Bool.false_eq_true,
          if_false]
        rw [he]
        simp [FS.put, FS.del, hne]
  exact ⟨key.1, key.2, fun hs => by rw [key.1, hs]⟩

theorem download_cover_success_witness :
    (download_cover host_open "cover.png" song_playing fs_cover).val = true ∧
    host_open.stored ("cover.png" ++ ".tmp") (host_open.curl_easy_perform song_playing.cover).2
      = "img" ∧
    ((download_cover host_open "cover.png" song_playing fs_cover).fs "cover.png" =
      some (host_open.stored ("cover.png" ++ ".tmp")
        (host_open.curl_easy_perform song_playing.cover).2) ∧
    (download_cover host_open "cover.png" song_playing fs_cover).fs ("cover.png" ++ ".tmp") =
      none ∧
    (host_open.stored ("cover.png" ++ ".tmp")
        (host_open.curl_easy_perform song_playing.cover).2 =
        (host_open.curl_easy_perform song_playing.cover).2 →
      (download_cover host_open "cover.png" song_playing fs_cover).fs "cover.png" =
        some (host_open.curl_easy_perform song_playing.cover).2)) :=
  ⟨by decide, by decide,
    download_cover_success host_open "cover.png" song_playing fs_cover (by decide)⟩

/-- C8 (as stated) fails: on a full device the transfer delivers the body
"img" and returns `CURLE_OK`, none of it reaches the temporary file, and
`download_cover` returns true with an empty file as the live cover. -/
theorem download_cover_truncated_cover :
    host_full.curl_easy_perform song_playing.cover = (CURLE_OK, "img") ∧
    (download_cover host_full "cover.png" song_playing fs_cover).val = true ∧
    (download_cover host_full "cover.png" song_playing fs_cover).fs "cover.png" = some "" ∧
    (download_cover host_full "cover.png" song_playing fs_cover).fs "cover.png" ≠
      some (host_full.curl_easy_perform song_playing.cover).2 := by
  decide

/-! ## OutputWriter: the cache of the last written text -/

theorem output_eta (o : output) : { o with last_output := o.last_output } = o := by
  cases o; rfl

theorem write_song_same (h : Host) (o : output) (str : String) (fs : FS)
    (he : o.last_output = str) : write_song h o str fs = ⟨o, fs, []⟩ := by
  unfold write_song; rw [if_pos he]

theorem write_song_val (h : Host) (o : output) (str : String) (fs : FS) :
    (write_song h o str fs).val = { o with last_output := str } := by
  unfold write_song
  split_ifs with he <;> first | (subst he; exact (output_eta o).symm) | rfl

theorem write_song_writes (h : Host) (o : output) (str : String) (fs : FS) :
    writes (write_song h o str fs).trace =
      if o.last_output ≠ str ∧ h.qfile_open o.path o.log_mode = true then 1 else 0 := by
  unfold write_song
  split_ifs with h1 h2 h3 h4 <;>
    simp_all [writes, Event.is_write, List.countP_cons]

theorem write_song_opens (h : Host) (o : output) (str : String) (fs : FS) :
    opens (write_song h o str fs).trace = if o.last_output ≠ str then 1 else 0 := by
  unfold write_song
  split_ifs with h1 h2 h3 h4 <;>
    simp_all [opens, Event.is_open, List.countP_cons]

theorem output_text_format (render : Renderer) (k : Consts) (placeholder : String) (s : song)
    (o o1 : output) (hf : o1.format = o.format) :
    output_text render k placeholder s o1 = output_text render k placeholder s o := by
  unfold output_text; rw [hf]

theorem handle_output_suppressed (h : Host) (render : Renderer) (k : Consts)
    (placeholder : String) (s : song) (o : output) (fs : FS)
    (hs : suppressed k s o = true) :
    handle_output h render k placeholder s o fs = ⟨o, fs, []⟩ := by
  unfold suppressed at hs
  unfold handle_output
  simp only [hs, if_true]

theorem handle_output_active (h : Host) (render : Renderer) (k : Consts)
    (placeholder : String) (s : song) (o : output) (fs : FS)
    (hs : suppressed k s o = false) :
    handle_output h render k placeholder s o fs =
      write_song h o (output_text render k placeholder s o) fs := by
  unfold suppressed at hs
  unfold handle_output
  simp only [hs, Bool.false_eq_true, if_false]

theorem handle_output_again (h1 h2 : Host) (render : Renderer) (k : Consts)
    (placeholder : String) (s : song) (o : output) (fs fs2 : FS) :
    handle_output h2 render k placeholder s
        (handle_output h1 render k placeholder s o fs).val fs2 =
      ⟨(handle_output h1 render k placeholder s o fs).val, fs2, []⟩ := by
  cases hs : suppressed k s o
  · rw [handle_output_active h1 render k placeholder s o fs hs, write_song_val]
    have hs2 : suppressed k s { o with last_output := output_text render k placeholder s o }
        = false := hs
    rw [handle_output_active h2 render k placeholder s _ fs2 hs2]
    exact write_song_same h2 _ _ fs2 (output_text_format render k placeholder s o
      { o with last_output := output_text render k placeholder s o } rfl).symm
  · rw [handle_output_suppressed h1 render k placeholder s o fs hs]
    exact handle_output_suppressed h2 render k placeholder s o fs2 hs

theorem handle_output_writes (h : Host) (render : Renderer) (k : Consts)
    (placeholder : String) (s : song) (o : output) (fs : FS) :
    writes (handle_output h render k placeholder s o fs).trace =
      if gets_written h render k placeholder s o = true then 1 else 0 := by
  cases hs : suppressed k s o
  · rw [handle_output_active h render k placeholder s o fs hs, write_song_writes]
    simp [gets_written, hs]
  · rw [handle_output_suppressed h render k placeholder s o fs hs]
    simp [gets_written, hs, writes]

theorem handle_outputs_again (h1 h2 : Host) (render : Renderer) (k : Consts)
    (placeholder : String) (s : song) (outs : List output) (fs fs2 : FS) :
    handle_outputs h2 render k placeholder s
        (handle_outputs h1 render k placeholder s outs fs).val fs2 =
      ⟨(handle_outputs h1 render k placeholder s outs fs).val, fs2, []⟩ := by
  induction outs generalizing fs fs2 with
  | nil => rfl
  | cons o os ih =>
    simp only [handle_outputs]
    rw [handle_output_again, ih]
    rfl

theorem handle_outputs_writes (h : Host) (render : Renderer) (k : Consts)
    (placeholder : String) (s : song) (outs : List output) (fs : FS) :
    writes (handle_outputs h render k placeholder s outs fs).trace =
      outs.countP (gets_written h render k placeholder s) := by
  induction outs generalizing fs with
  | nil => rfl
  | cons o os ih =>
    simp only [handle_outputs, writes, List.countP_append, List.countP_cons]
    have h1 := handle_output_writes h render k placeholder s o fs
    have h2 := ih (handle_output h render k placeholder s o fs).fs
    simp only [writes] at h1 h2
    rw [h1, h2]
    omega

theorem handle_outputs_append (h : Host) (render : Renderer) (k : Consts)
    (placeholder : String) (s : song) (a b : List output) (fs : FS) :
    handle_outputs h render k placeholder s (a ++ b) fs =
      ⟨(handle_outputs h render k placeholder s a fs).val ++
          (handle_outputs h render k placeholder s b
            (handle_outputs h render k placeholder s a fs).fs).val,
        (handle_outputs h render k placeholder s b
          (handle_outputs h render k placeholder s a fs).fs).fs,
        (handle_outputs h render k placeholder s a fs).trace ++
          (handle_outputs h render k placeholder s b
            (handle_outputs h render k placeholder s a fs).fs).trace⟩ := by
  induction a generalizing fs with
  | nil => simp [handle_outputs]
  | cons o os ih =>
    rw [List.cons_append]
    simp only [handle_outputs]
    rw [ih]
    simp

theorem handle_outputs_length (h : Host) (render : Renderer) (k : Consts)
    (placeholder : String) (s : song) (outs : List output) (fs : FS) :
    (handle_outputs h render k placeholder s outs fs).val.length = outs.length := by
  induction outs generalizing fs with
  | nil => rfl
  | cons o os ih => simp [handle_outputs, ih]

/-- C1 (amended): of two `handle_outputs` calls in a row with the same song
and renderer, the first writes once to each output that is not skipped as a log
of an inactive song, whose cache differs from the computed text and whose file
opens, and to no other output; the second call causes no event at all (no open,
no write) and leaves every output and the files unchanged.  So an output gets
at most one write over the two calls. -/
theorem handle_outputs_idempotent (h1 h2 : Host) (render : Renderer) (k : Consts)
    (placeholder : String) (s : song) (outs : List output) (fs : FS) :
    writes (handle_outputs h1 render k placeholder s outs fs).trace =
      outs.countP (gets_written h1 render k placeholder s) ∧
    (handle_outputs h2 render k placeholder s
        (handle_outputs h1 render k placeholder s outs fs).val
        (handle_outputs h1 render k placeholder s outs fs).fs).trace = [] ∧
    (handle_outputs h2 render k placeholder s
        (handle_outputs h1 render k placeholder s outs fs).val
        (handle_outputs h1 render k placeholder s outs fs).fs).val =
      (handle_outputs h1 render k placeholder s outs fs).val ∧
    (handle_outputs h2 render k placeholder s
        (handle_outputs h1 render k placeholder s outs fs).val
        (handle_outputs h1 render k placeholder s outs fs).fs).fs =
      (handle_outputs h1 render k placeholder s outs fs).fs ∧
    (∀ (o : output) (fs1 : FS),
      writes (handle_output h1 render k placeholder s o fs1).trace +
        writes (handle_output h2 render k placeholder s
          (handle_output h1 render k placeholder s o fs1).val
          (handle_output h1 render k placeholder s o fs1).fs).trace =
        if gets_written h1 render k placeholder s o = true then 1 else 0) := by
  refine ⟨handle_outputs_writes h1 render k placeholder s outs fs, ?_, ?_, ?_, ?_⟩
  · rw [handle_outputs_again]
  · rw [handle_outputs_again]
  · rw [handle_outputs_again]
  · intro o fs1
    rw [handle_output_again, handle_output_writes]
    simp [writes]

/-- C1 (as stated) fails: an output whose cache differs from the computed text
gets no write at all over the two calls when its file cannot be opened, and
none when it is a log and the song is paused. -/
theorem handle_outputs_zero_writes :
    out_plain.last_output ≠ output_text render_id consts_ex "none" song_playing out_plain ∧
    writes (handle_outputs host_closed render_id consts_ex "none" song_playing
      [out_plain] fs_empty).trace +
      writes (handle_outputs host_closed render_id consts_ex "none" song_playing
        (handle_outputs host_closed render_id consts_ex "none" song_playing
          [out_plain] fs_empty).val
        (handle_outputs host_closed render_id consts_ex "none" song_playing
          [out_plain] fs_empty).fs).trace = 0 ∧
    out_log.last_output ≠ output_text render_id consts_ex "none" song_paused out_log ∧
    writes (handle_outputs host_open render_id consts_ex "none" song_paused
      [out_log] fs_empty).trace +
      writes (handle_outputs host_open render_id consts_ex "none" song_paused
        (handle_outputs host_open render_id consts_ex "none" song_paused
          [out_log] fs_empty).val
        (handle_outputs host_open render_id consts_ex "none" song_paused
          [out_log] fs_empty).fs).trace = 0 := by
  decide

/-- C2 (amended): when the text differs from the cache and opening the file
fails, `write_song` has already set `last_output` to the text: it writes
nothing, logs one error and leaves the files alone, and the next `write_song`
or `handle_outputs` call that computes the same text for this output finds the
cache equal and makes no further attempt, whatever the host then allows. -/
theorem write_song_open_failure (h : Host) (o : output) (str : String) (fs : FS)
    (hne : o.last_output ≠ str) (hfail : h.qfile_open o.path o.log_mode = false) :
    (write_song h o str fs).val.last_output = str ∧
    (write_song h o str fs).fs = fs ∧
    writes (write_song h o str fs).trace = 0 ∧
    errors (write_song h o str fs).trace = 1 ∧
    (∀ (h2 : Host) (fs2 : FS),
      (write_song h2 (write_song h o str fs).val str fs2).trace = []) ∧
    (∀ (h2 : Host) (render : Renderer) (k : Consts) (placeholder : String) (s : song)
      (fs2 : FS), output_text render k placeholder s o = str →
      (handle_outputs h2 render k placeholder s [(write_song h o str fs).val] fs2).trace
        = []) := by
  have hv := write_song_val h o str fs
  refine ⟨by rw [hv], ?_, ?_, ?_, ?_, ?_⟩
  · unfold write_song; rw [if_neg hne]; simp [hfail]
  · rw [write_song_writes]; simp [hfail]
  · unfold write_song; rw [if_neg hne]
    simp [hfail, errors, Event.is_error, List.countP_cons]
  · intro h2 fs2
    rw [hv, write_song_same h2 _ str fs2 rfl]
  · intro h2 render k placeholder s fs2 ht
    rw [hv]
    simp only [handle_outputs, List.append_nil]
    cases hs : suppressed k s { o with last_output := str }
    · rw [handle_output_active h2 render k placeholder s _ fs2 hs,
        output_text_format render k placeholder s o { o with last_output := str } rfl, ht,
        write_song_same h2 _ str fs2 rfl]
    · rw [handle_output_suppressed h2 render k placeholder s _ fs2 hs]

theorem write_song_open_failure_witness :
    out_plain.last_output ≠ "title" ∧
    host_closed.qfile_open out_plain.path out_plain.log_mode = false ∧
    ((write_song host_closed out_plain "title" fs_empty).val.last_output = "title" ∧
    (write_song host_closed out_plain "title" fs_empty).fs = fs_empty ∧
    writes (write_song host_closed out_plain "title" fs_empty).trace = 0 ∧
    errors (write_song host_closed out_plain "title" fs_empty).trace = 1 ∧
    (∀ (h2 : Host) (fs2 : FS),
      (write_song h2 (write_song host_closed out_plain "title" fs_empty).val "title"
        fs2).trace = []) ∧
    (∀ (h2 : Host) (render : Renderer) (k : Consts) (placeholder : String) (s : song)
      (fs2 : FS), output_text render k placeholder s out_plain = "title" →
      (handle_outputs h2 render k placeholder s
        [(write_song host_closed out_plain "title" fs_empty).val] fs2).trace = [])) :=
  ⟨by decide, by decide,
    write_song_open_failure host_closed out_plain "title" fs_empty (by decide) (by decide)⟩

/-- C2 (as stated) fails: the file cannot be opened, yet `write_song` replaces
the cached "old" by the new text, and the next `handle_outputs` call with the
same song makes no open attempt although the file could now be opened. -/
theorem write_song_failure_updates_cache :
    host_closed.qfile_open out_plain.path out_plain.log_mode = false ∧
    out_plain.last_output = "old" ∧
    (write_song host_closed out_plain
      (output_text render_id consts_ex "none" song_playing out_plain)
      fs_empty).val.last_output = "title" ∧
    opens (handle_outputs host_open render_id consts_ex "none" song_playing
      [(write_song host_closed out_plain
        (output_text render_id consts_ex "none" song_playing out_plain) fs_empty).val]
      fs_empty).trace = 0 := by
  decide

/-- C4: for a log-mode output and a song that is paused or beyond, the pass
of `handle_outputs` over this output causes no event and leaves the output,
its cache included, and the files as they were, whatever the format, the
placeholder and the cache are; in a list of outputs the output stays in its
place unchanged and the events and files are those of the run without it. -/
theorem log_mode_suppression (h : Host) (render : Renderer) (k : Consts)
    (placeholder : String) (s : song) (o : output) (pre post : List output) (fs : FS)
    (hlog : o.log_mode = true) (hst : s.state ≥ k.state_paused) :
    handle_output h render k placeholder s o fs = ⟨o, fs, []⟩ ∧
    (handle_outputs h render k placeholder s (pre ++ o :: post) fs).trace =
      (handle_outputs h render k placeholder s (pre ++ post) fs).trace ∧
    (handle_outputs h render k placeholder s (pre ++ o :: post) fs).fs =
      (handle_outputs h render k placeholder s (pre ++ post) fs).fs ∧
    (handle_outputs h render k placeholder s (pre ++ o :: post) fs).val[pre.length]? =
      some o ∧
    writes (handle_outputs h render k placeholder s (pre ++ o :: post) fs).trace =
      writes (handle_outputs h render k placeholder s (pre ++ post) fs).trace := by
  have hs : suppressed k s o = true := by simp [suppressed, hlog, hst]
  have e1 := fun fs1 => handle_output_suppressed h render k placeholder s o fs1 hs
  have e2 : (handle_outputs h render k placeholder s (pre ++ o :: post) fs).trace =
      (handle_outputs h render k placeholder s (pre ++ post) fs).trace := by
    rw [handle_outputs_append, handle_outputs_append]
    simp only [handle_outputs, e1, List.nil_append]
  refine ⟨e1 fs, e2, ?_, ?_, by rw [e2]⟩
  · rw [handle_outputs_append, handle_outputs_append]
    simp only [handle_outputs, e1]
  · rw [handle_outputs_append]
    simp only [handle_outputs, e1]
    rw [List.getElem?_append_right (by rw [handle_outputs_length])]
    simp [handle_outputs_length]

theorem log_mode_suppression_witness :
    out_log.log_mode = true ∧ song_paused.state ≥ consts_ex.state_paused ∧
    (handle_output host_open render_id consts_ex "none" song_paused out_log fs_empty =
      ⟨out_log, fs_empty, []⟩ ∧
    (handle_outputs host_open render_id consts_ex "none" song_paused
      ([out_plain] ++ out_log :: []) fs_empty).trace =
      (handle_outputs host_open render_id consts_ex "none" song_paused
        ([out_plain] ++ []) fs_empty).trace ∧
    (handle_outputs host_open render_id consts_ex "none" song_paused
      ([out_plain] ++ out_log :: []) fs_empty).fs =
      (handle_outputs host_open render_id consts_ex "none" song_paused
        ([out_plain] ++ []) fs_empty).fs ∧
    (handle_outputs host_open render_id consts_ex "none" song_paused
      ([out_plain] ++ out_log :: []) fs_empty).val[[out_plain].length]? = some out_log ∧
    writes (handle_outputs host_open render_id consts_ex "none" song_paused
      ([out_plain] ++ out_log :: []) fs_empty).trace =
      writes (handle_outputs host_open render_id consts_ex "none" song_paused
        ([out_plain] ++ []) fs_empty).trace) :=
  ⟨by decide, by decide,
    log_mode_suppression host_open render_id consts_ex "none" song_paused out_log
      [out_plain] [] fs_empty (by decide) (by decide)⟩

/-! ## OutputWriter: the placeholder -/

theorem has_marker_iff (l : List Char) : has_marker l = true ↔ marker <:+: l := by
  induction l using has_marker.induct with
  | case1 => simp [has_marker, marker]
  | case2 c => simp [has_marker, marker, List.infix_cons_iff]
  | case3 c d rest ih =>
    have hp : marker <+: c :: d :: rest ↔ c = '%' ∧ d = 's' := by
      simp only [marker, List.cons_prefix_cons, List.nil_prefix, and_true]
      exact ⟨fun ⟨a, b⟩ => ⟨a.symm, b.symm⟩, fun ⟨a, b⟩ => ⟨a.symm, b.symm⟩⟩
    rw [has_marker, Bool.or_eq_true, ih, decide_eq_true_eq, ← hp]
    exact List.infix_cons_iff.symm

theorem intercalate_cons_cons (sep p q : List Char) (ps : List (List Char)) :
    List.intercalate sep (p :: q :: ps) = p ++ sep ++ List.intercalate sep (q :: ps) := by
  simp [List.intercalate, List.intersperse]

theorem intercalate_push (sep p : List Char) (c : Char) (ps : List (List Char)) :
    List.intercalate sep ((c :: p) :: ps) = c :: List.intercalate sep (p :: ps) := by
  cases ps with
  | nil => simp [List.intercalate, List.intersperse]
  | cons q qs => simp [intercalate_cons_cons]

theorem split_marker_ne_nil (l : List Char) : split_marker l ≠ [] := by
  induction l using split_marker.induct with
  | case1 => simp [split_marker]
  | case2 c => simp [split_marker]
  | case3 c d rest hc ih => simp [split_marker, hc]
  | case4 c d rest hc ih => simp [split_marker, hc]

theorem split_marker_cons (l : List Char) :
    split_marker l = (split_marker l).headD [] :: (split_marker l).tail := by
  have := split_marker_ne_nil l
  cases hs : split_marker l with
  | nil => exact absurd hs this
  | cons p ps => rfl

theorem split_marker_join (sep : List Char) (c d : Char) (rest : List Char)
    (hc : ¬(c = '%' ∧ d = 's')) :
    List.intercalate sep (split_marker (c :: d :: rest)) =
      c :: List.intercalate sep (split_marker (d :: rest)) := by
  rw [split_marker, if_neg hc, intercalate_push, ← split_marker_cons]

theorem split_marker_hit (sep : List Char) (rest : List Char) :
    List.intercalate sep (split_marker ('%' :: 's' :: rest)) =
      sep ++ List.intercalate sep (split_marker rest) := by
  rw [split_marker, if_pos ⟨rfl, rfl⟩, split_marker_cons rest, intercalate_cons_cons]
  simp

theorem split_marker_source (l : List Char) :
    List.intercalate marker (split_marker l) = l := by
  induction l using split_marker.induct with
  | case1 => simp [split_marker, List.intercalate]
  | case2 c => simp [split_marker, List.intercalate]
  | case3 c d rest hc ih =>
    obtain ⟨rfl, rfl⟩ := hc
    rw [split_marker_hit, ih]; rfl
  | case4 c d rest hc ih => rw [split_marker_join _ _ _ _ hc, ih]

theorem split_marker_replaced (l : List Char) :
    List.intercalate [' '] (split_marker l) = replace_marker l := by
  induction l using split_marker.induct with
  | case1 => simp [split_marker, List.intercalate, replace_marker]
  | case2 c => simp [split_marker, List.intercalate, replace_marker]
  | case3 c d rest hc ih =>
    rw [replace_marker, if_pos hc]
    obtain ⟨rfl, rfl⟩ := hc
    rw [split_marker_hit, ih]; rfl
  | case4 c d rest hc ih =>
    rw [split_marker_join _ _ _ _ hc, ih, replace_marker, if_neg hc]

theorem split_marker_head (l : List Char) : (split_marker l).headD [] <+: l := by
  induction l using split_marker.induct with
  | case1 => simp [split_marker]
  | case2 c => simp [split_marker]
  | case3 c d rest hc ih => simp [split_marker, hc]
  | case4 c d rest hc ih =>
    rw [split_marker, if_neg hc]
    simpa using ih

theorem split_marker_pieces (l : List Char) :
    ∀ p ∈ split_marker l, has_marker p = false := by
  induction l using split_marker.induct with
  | case1 => simp [split_marker, has_marker]
  | case2 c => simp [split_marker, has_marker]
  | case3 c d rest hc ih =>
    rw [split_marker, if_pos hc]
    intro p hp
    rcases List.mem_cons.mp hp with rfl | hp
    · rfl
    · exact ih p hp
  | case4 c d rest hc ih =>
    rw [split_marker, if_neg hc]
    intro p hp
    have hhead := split_marker_head (d :: rest)
    rw [split_marker_cons (d :: rest)] at ih
    rcases List.mem_cons.mp hp with rfl | hp
    · have i1 := ih _ (List.mem_cons_self _ _)
      cases hq : (split_marker (d :: rest)).headD [] with
      | nil => rfl
      | cons e q =>
        rw [hq] at hhead i1
        have : e = d := (List.cons_prefix_cons.mp hhead).1
        subst this
        rw [has_marker, i1]
        simp [hc]
    · exact ih p (List.mem_cons_of_mem _ hp)

theorem has_marker_cons (c : Char) (l : List Char) (hc : c ≠ '%') :
    has_marker (c :: l) = has_marker l := by
  cases l with
  | nil => rfl
  | cons d rest => rw [has_marker]; simp [hc]

theorem replace_marker_head (d : Char) (rest : List Char) :
    ∃ t, replace_marker (d :: rest) = d :: t ∨ replace_marker (d :: rest) = ' ' :: t := by
  cases rest with
  | nil => exact ⟨[], Or.inl rfl⟩
  | cons e r =>
    rw [replace_marker]
    split_ifs
    · exact ⟨_, Or.inr rfl⟩
    · exact ⟨_, Or.inl rfl⟩

theorem replace_marker_clean (l : List Char) : has_marker (replace_marker l) = false := by
  induction l using replace_marker.induct with
  | case1 => rfl
  | case2 c => rfl
  | case3 c d rest hc ih =>
    rw [replace_marker, if_pos hc, has_marker_cons _ _ (by decide), ih]
  | case4 c d rest hc ih =>
    rw [replace_marker, if_neg hc]
    obtain ⟨t, ht | ht⟩ := replace_marker_head d rest
    · rw [ht] at ih ⊢
      rw [has_marker, ih]; simp [hc]
    · rw [ht] at ih ⊢
      rw [has_marker, ih]; simp

theorem replace_marker_id (l : List Char) (hl : has_marker l = false) :
    replace_marker l = l := by
  induction l using replace_marker.induct with
  | case1 => rfl
  | case2 c => rfl
  | case3 c d rest hc ih => simp [has_marker, hc] at hl
  | case4 c d rest hc ih =>
    rw [has_marker] at hl
    simp only [Bool.or_eq_false_iff] at hl
    rw [replace_marker, if_neg hc, ih hl.2]


theorem output_text_placeholder (render : Renderer) (k : Consts) (placeholder : String)
    (s : song) (o : output) (hc : render o.format s = "" ∨ s.state ≥ k.state_paused) :
    output_text render k placeholder s o = String.mk (replace_marker placeholder.data) := by
  unfold output_text
  have : ((render o.format s).isEmpty || decide (s.state ≥ k.state_paused)) = true := by
    rcases hc with hc | hc
    · rw [hc]; rfl
    · simp [hc]
  simp only [this, if_true]

/-- C3: whenever the rendered text is empty or the song is paused or beyond,
the text `handle_outputs` computes, and hands to `write_song` unless the output
is a skipped log, is the placeholder cut at the occurrences of the marker
"%s" and put together again with one space in place of each occurrence, the
pieces in between unchanged and in order; it contains no marker, and a
placeholder without the marker is taken verbatim. -/
theorem placeholder_substitution (h : Host) (render : Renderer) (k : Consts)
    (placeholder : String) (s : song) (o : output) (fs : FS)
    (hc : render o.format s = "" ∨ s.state ≥ k.state_paused) :
    (∃ pieces : List (List Char),
      (∀ p ∈ pieces, ¬ marker <:+: p) ∧
      placeholder.data = List.intercalate marker pieces ∧
      (output_text render k placeholder s o).data = List.intercalate [' '] pieces) ∧
    ¬ marker <:+: (output_text render k placeholder s o).data ∧
    (¬ marker <:+: placeholder.data → output_text render k placeholder s o = placeholder) ∧
    (suppressed k s o = false →
      handle_output h render k placeholder s o fs =
        write_song h o (output_text render k placeholder s o) fs) := by
  rw [output_text_placeholder render k placeholder s o hc]
  refine ⟨⟨split_marker placeholder.data, ?_, (split_marker_source _).symm,
    (split_marker_replaced _).symm⟩, ?_, ?_, ?_⟩
  · intro p hp hm
    have := split_marker_pieces placeholder.data p hp
    rw [(has_marker_iff p).mpr hm] at this
    cases this
  · intro hm
    have := replace_marker_clean placeholder.data
    rw [(has_marker_iff _).mpr hm] at this
    cases this
  · intro hm
    have hf : has_marker placeholder.data = false := by
      cases hh : has_marker placeholder.data
      · rfl
      · exact absurd ((has_marker_iff _).mp hh) hm
    rw [replace_marker_id _ hf]
  · intro hs
    rw [handle_output_active h render k placeholder s o fs hs,
      output_text_placeholder render k placeholder s o hc]

theorem placeholder_substitution_witness :
    (render_id out_plain.format song_paused = "" ∨
      song_paused.state ≥ consts_ex.state_paused) ∧
    output_text render_id consts_ex "%sidle%s" song_paused out_plain = " idle " ∧
    ((∃ pieces : List (List Char),
      (∀ p ∈ pieces, ¬ marker <:+: p) ∧
      ("%sidle%s" : String).data = List.intercalate marker pieces ∧
      (output_text render_id consts_ex "%sidle%s" song_paused out_plain).data =
        List.intercalate [' '] pieces) ∧
    ¬ marker <:+: (output_text render_id consts_ex "%sidle%s" song_paused out_plain).data ∧
    (¬ marker <:+: ("%sidle%s" : String).data →
      output_text render_id consts_ex "%sidle%s" song_paused out_plain = "%sidle%s") ∧
    (suppressed consts_ex song_paused out_plain = false →
      handle_output host_open render_id consts_ex "%sidle%s" song_paused out_plain fs_empty =
        write_song host_open out_plain
          (output_text render_id consts_ex "%sidle%s" song_paused out_plain) fs_empty)) :=
  ⟨Or.inr (by decide), by decide,
    placeholder_substitution host_open render_id consts_ex "%sidle%s" song_paused out_plain
      fs_empty (Or.inr (by decide))⟩

end Tuna
